import Mathlib

/-!
Verification development for the PokeMMO bot (`simple_pokebot.py`).

The Python source is shallowly embedded below: pure decision logic becomes
Lean functions, the stateful worker loop becomes a small-step machine on an
explicit state record, and the external world (screen captures, template
matching scores, key presses) is passed in as explicit parameters.  Python
integers are modelled as `Int` (they may go negative), times as `Rat`.
-/

namespace PokeBot

/-- Embeds the `Direction` enum (source lines 25-30). -/
inductive Direction where
  | UP
  | DOWN
  | LEFT
  | RIGHT
deriving DecidableEq, Repr

/-- Embeds the `BotState` enum (source lines 15-23). -/
inductive BotState where
  | STOPPED
  | MOVING
  | IN_BATTLE
  | ATTACKING
  | RUNNING
  | TELEPORTING
  | HEALING
deriving DecidableEq, Repr

/-- Embeds the per-ability PP dictionaries (`max_pp`, `current_pp`), which in
the source are dicts with exactly the keys 1..4 (source lines 52-59).
Values are `Int` because Python integer arithmetic can go below zero. -/
structure PPMap where
  pp1 : Int
  pp2 : Int
  pp3 : Int
  pp4 : Int
deriving DecidableEq, Repr

/-- Dictionary lookup `m[i]` for the ability keys 1..4. -/
def PPMap.get (m : PPMap) : Nat → Int
  | 1 => m.pp1
  | 2 => m.pp2
  | 3 => m.pp3
  | 4 => m.pp4
  | _ => 0

/-- Dictionary store `m[i] = v` for the ability keys 1..4. -/
def PPMap.set (m : PPMap) (i : Nat) (v : Int) : PPMap :=
  match i with
  | 1 => { m with pp1 := v }
  | 2 => { m with pp2 := v }
  | 3 => { m with pp3 := v }
  | 4 => { m with pp4 := v }
  | _ => m

/-- Embeds `BotConfig` (source lines 32-59): movement timings, battle
settings, the Abra-teleport (escalation) flag and the PP dictionaries. -/
structure Config where
  time_per_space : Rat
  time_to_turn : Rat
  movement_delay : Rat
  detection_threshold : Rat
  attack_wait_time : Rat
  selected_ability : Nat
  backup_ability : Nat
  use_backup : Bool
  use_abra_teleport : Bool
  max_pp : PPMap
  current_pp : PPMap
deriving DecidableEq, Repr

/-- Embeds `BotConfig.__post_init__` defaults (source lines 36-59). -/
def defaultConfig : Config :=
  { time_per_space := 0.20
    time_to_turn := 0.12
    movement_delay := 0.5
    detection_threshold := 0.8
    attack_wait_time := 11.0
    selected_ability := 1
    backup_ability := 2
    use_backup := true
    use_abra_teleport := false
    max_pp := ⟨20, 20, 20, 20⟩
    current_pp := ⟨20, 20, 20, 20⟩ }

/-! ## Detector (`ImageDetector.detect`, source lines 91-112)

The capture provider, the colour conversion and `cv2.matchTemplate` are
external.  One call to `detect` either raises somewhere inside the `try`
block, or produces the maximum normalized cross-correlation value
(`max_val` of `cv2.minMaxLoc`); we pass that outcome in as
`Except Unit Rat`.  Template presence (`template_name in self.templates`)
is passed as a membership predicate on names. -/

/-- Embeds `ImageDetector.detect` (source lines 91-112): returns `false`
when the template name is not loaded, `false` when the capture-and-match
step raises, and otherwise compares `max_val` with the threshold.  Being a
total Lean function, it can never propagate an exception. -/
def detect (loaded : String → Bool) (captureMatch : Except Unit Rat)
    (template_name : String) (threshold : Rat) : Bool :=
  if ¬ loaded template_name then
    false
  else
    match captureMatch with
    | .error _ => false
    | .ok max_val => decide (max_val ≥ threshold)

/-! ## Battle policy (`BattleController`, source lines 122-228) -/

/-- Embeds `BattleController.get_ability_to_use` (source lines 129-140):
primary if it has PP, else backup if enabled and it has PP, else `none`
(flee). -/
def get_ability_to_use (cfg : Config) : Option Nat :=
  if cfg.current_pp.get cfg.selected_ability > 0 then
    some cfg.selected_ability
  else if cfg.use_backup ∧ cfg.current_pp.get cfg.backup_ability > 0 then
    some cfg.backup_ability
  else
    none

/-- Embeds the argument-defaulting step of `select_fight_and_ability`
(source lines 144-145): an explicit ability argument is used as is,
otherwise the selection algorithm chooses. -/
def chosen_ability (cfg : Config) (ability : Option Nat) : Option Nat :=
  match ability with
  | some a => some a
  | none => get_ability_to_use cfg

/-- Embeds `BattleController.select_fight_and_ability` (source lines
142-195): with no usable ability it returns `False` and changes nothing;
otherwise it runs the fight script for the chosen slot, decrements that
ability's current PP by one, and returns `True`.  The key presses are
external effects with no bearing on the state, so the embedding keeps the
return value and the configuration effect. -/
def select_fight_and_ability (cfg : Config) (ability : Option Nat) :
    Bool × Config :=
  match chosen_ability cfg ability with
  | none => (false, cfg)
  | some a =>
      (true,
       { cfg with current_pp := cfg.current_pp.set a (cfg.current_pp.get a - 1) })

/-! ## Movement engine (`SmartMovementController`, source lines 230-294) -/

/-- Embeds the mutable slice of `SmartMovementController` used by `move`:
the facing (`current_direction`, source line 236). -/
structure MoveCtl where
  current_direction : Direction
deriving DecidableEq, Repr

/-- Embeds `SmartMovementController.move` (source lines 247-266): the key
is held for `turn_time + time_per_space * spaces`, where `turn_time` is
`time_to_turn` exactly when the requested direction differs from the
current facing, in which case the facing is updated to the request.
Returns the hold duration together with the updated controller. -/
def move (cfg : Config) (c : MoveCtl) (direction : Direction) (spaces : Nat) :
    Rat × MoveCtl :=
  let turn_time : Rat :=
    if c.current_direction ≠ direction then cfg.time_to_turn else 0
  let c' :=
    if c.current_direction ≠ direction then
      { c with current_direction := direction }
    else c
  (turn_time + cfg.time_per_space * spaces, c')

/-! ## Configuration surface (`BotGUI`, source lines 724-740, 772-789) -/

/-- Embeds `BotGUI.update_pp` (source lines 724-734): the entry text parses
to an integer or not (`Option Int`); a positive parsed value replaces both
`max_pp[ability]` and `current_pp[ability]`, anything else leaves the
configuration unchanged (the GUI only restores the entry text). -/
def update_pp (cfg : Config) (ability : Nat) (entry : Option Int) : Config :=
  match entry with
  | none => cfg
  | some value =>
      if value > 0 then
        { cfg with
            max_pp := cfg.max_pp.set ability value
            current_pp := cfg.current_pp.set ability value }
      else cfg

/-- Embeds `BotGUI.reset_pp` (source lines 736-740) and the identical
healing reset in `heal_pokemon_at_center` (source lines 349-350): for each
ability 1..4, `current_pp[i] = max_pp[i]`. -/
def reset_pp (cfg : Config) : Config :=
  { cfg with
      current_pp :=
        ((((cfg.current_pp.set 1 (cfg.max_pp.get 1)).set 2
            (cfg.max_pp.get 2)).set 3 (cfg.max_pp.get 3)).set 4
          (cfg.max_pp.get 4)) }

/-- Mutable bot fields touched by `BotGUI.toggle_bot`, `PokemonBot.start`
and `PokemonBot.stop` (source lines 300-317). -/
structure GuiBot where
  running : Bool
  state : BotState
  cfg : Config
deriving DecidableEq, Repr

/-- Embeds `BotGUI.toggle_bot` (source lines 772-789) together with the
`PokemonBot.start`/`stop` it calls (source lines 308-317).  `hasHpBar`
stands for `'hp_bar' in self.bot.detector.templates`; `entries i` is the
parse of the i-th PP entry field.  The second component records whether a
worker thread was launched by this call. -/
def toggle_bot (hasHpBar : Bool) (entries : Nat → Option Int) (b : GuiBot) :
    GuiBot × Bool :=
  if ¬ b.running then
    if ¬ hasHpBar then
      (b, false)
    else
      let cfg' := update_pp (update_pp (update_pp (update_pp b.cfg
        1 (entries 1)) 2 (entries 2)) 3 (entries 3)) 4 (entries 4)
      ({ running := true, state := BotState.MOVING, cfg := cfg' }, true)
  else
    ({ b with running := false, state := BotState.STOPPED }, false)

/-! ## Worker loop (`PokemonBot.main_loop` with `handle_battle`,
source lines 212-228 and 319-394)

The worker thread is embedded as a small-step machine.  Each step is one
pass through either the body of the outer `while self.running` loop up to
the point where `handle_battle` is entered (source lines 360-371), or one
iteration of `handle_battle`'s `while is_in_battle` loop (source lines
214-227), with the post-battle processing (source lines 374-387, including
`teleport_to_pokecenter` and `heal_pokemon_at_center`) folded into the
step that leaves the battle loop.  Every screen capture the detector makes
is an independent read of the outside world, so the environment is a
family of boolean streams indexed by the outer-iteration and
poll-iteration counters.  A step also reports the list of values assigned
to `self.state` during it, in order. -/

/-- Detector responses, one per capture: `outerInBattle n` is the
`is_in_battle` read at the top of outer iteration `n` (line 361);
`battleTop n i`, `menuVis n i` and `battleAfter n i` are the three reads
of poll iteration `i` of `handle_battle` inside outer iteration `n`
(lines 214, 215 and 225); `teleportInBattle n` is the read inside
`teleport_to_pokecenter` (line 322). -/
structure Env where
  outerInBattle : Nat → Bool
  battleTop : Nat → Nat → Bool
  menuVis : Nat → Nat → Bool
  battleAfter : Nat → Nat → Bool
  teleportInBattle : Nat → Bool

/-- Program position of the worker: top of outer iteration `n`, top of
poll iteration `i` of the battle loop within outer iteration `n`, or
returned from `main_loop`. -/
inductive PC where
  | outer (n : Nat)
  | battle (n i : Nat)
  | done
deriving DecidableEq, Repr

/-- The worker-visible mutable state of `PokemonBot` (source lines
299-306): lifecycle state, configuration, statistics, and the `running`
flag (cleared externally by `stop`, source lines 314-317). -/
structure WSt where
  pc : PC
  running : Bool
  botState : BotState
  cfg : Config
  battles : Nat
  runs : Nat
  movements : Nat
deriving DecidableEq, Repr

/-- Result values of `BattleController.handle_battle` (source lines
221 and 228). -/
inductive BattleResult where
  | run
  | battle_complete
deriving DecidableEq, Repr

/-- Embeds the processing of `handle_battle`'s result (source lines
373-387): on `"run"`, set state `RUNNING` and bump the run counter; with
Abra teleport enabled, `teleport_to_pokecenter` (source lines 319-328)
proceeds only if the detector does not report battle, in which case
`heal_pokemon_at_center` (source lines 330-354) resets all PP and stops
the bot, ending `main_loop`; otherwise fall through to state `MOVING` and
the next outer iteration. -/
def post_battle (env : Env) (n : Nat) (result : BattleResult) (w : WSt) :
    WSt × List BotState :=
  match result with
  | .battle_complete =>
      ({ w with botState := BotState.MOVING, pc := PC.outer (n + 1) },
       [BotState.MOVING])
  | .run =>
      let w1 := { w with botState := BotState.RUNNING, runs := w.runs + 1 }
      if w.cfg.use_abra_teleport then
        if ¬ env.teleportInBattle n then
          ({ w1 with
              botState := BotState.STOPPED
              running := false
              cfg := reset_pp w1.cfg
              pc := PC.done },
           [BotState.RUNNING, BotState.TELEPORTING, BotState.HEALING,
            BotState.STOPPED])
        else
          ({ w1 with botState := BotState.MOVING, pc := PC.outer (n + 1) },
           [BotState.RUNNING, BotState.MOVING])
      else
        ({ w1 with botState := BotState.MOVING, pc := PC.outer (n + 1) },
         [BotState.RUNNING, BotState.MOVING])

/-- The `any(pp > 0 for pp in self.config.current_pp.values())` check of
`main_loop` (source line 366): the dict holds exactly the keys 1..4. -/
def has_pp (cfg : Config) : Bool :=
  decide (cfg.current_pp.pp1 > 0 ∨ cfg.current_pp.pp2 > 0 ∨
    cfg.current_pp.pp3 > 0 ∨ cfg.current_pp.pp4 > 0)

/-- One step of the worker machine.  At `PC.outer n` it runs source lines
360-371 (the `running` check, the outer battle detection, the statistics
and pre-battle state updates, or one movement cycle via lines 389-392).
At `PC.battle n i` it runs one iteration of `handle_battle`'s loop
(source lines 214-227), entering `post_battle` when the loop returns. -/
def step (env : Env) (w : WSt) : WSt × List BotState :=
  match w.pc with
  | PC.done => (w, [])
  | PC.outer n =>
      if ¬ w.running then
        ({ w with pc := PC.done }, [])
      else if env.outerInBattle n then
        let st := if has_pp w.cfg then BotState.ATTACKING else BotState.RUNNING
        ({ w with
            pc := PC.battle n 0
            botState := st
            battles := w.battles + 1 },
         [BotState.IN_BATTLE, st])
      else if w.botState = BotState.MOVING then
        ({ w with movements := w.movements + 1, pc := PC.outer (n + 1) }, [])
      else
        ({ w with pc := PC.outer (n + 1) }, [])
  | PC.battle n i =>
      if ¬ env.battleTop n i then
        post_battle env n BattleResult.battle_complete w
      else if env.menuVis n i then
        match select_fight_and_ability w.cfg none with
        | (false, _) => post_battle env n BattleResult.run w
        | (true, cfg') =>
            let w' := { w with cfg := cfg' }
            if ¬ env.battleAfter n i then
              post_battle env n BattleResult.battle_complete w'
            else
              ({ w' with pc := PC.battle n (i + 1) }, [])
      else
        if ¬ env.battleAfter n i then
          post_battle env n BattleResult.battle_complete w
        else
          ({ w with pc := PC.battle n (i + 1) }, [])

/-- Iterates `step`, concatenating the state traces. -/
def runSteps (env : Env) (w : WSt) : Nat → WSt × List BotState
  | 0 => (w, [])
  | Nat.succ k =>
      let p := step env w
      let q := runSteps env p.1 k
      (q.1, p.2 ++ q.2)

/-- The PP invariant of the data model: every ability's current PP lies
between 0 and its maximum. -/
def ppInvariant (cfg : Config) : Prop :=
  ∀ i ∈ Finset.Icc 1 4,
    0 ≤ cfg.current_pp.get i ∧ cfg.current_pp.get i ≤ cfg.max_pp.get i

/-! ## Concrete fixtures used by witnesses and counterexamples -/

/-- Detector that always reports battle active and menu visible. -/
def envConst : Env :=
  ⟨fun _ => true, fun _ _ => true, fun _ _ => true, fun _ _ => true,
   fun _ => true⟩

/-- Detector as `envConst` except battle is reported inactive at the
teleport check. -/
def envCalmTeleport : Env :=
  ⟨fun _ => true, fun _ _ => true, fun _ _ => true, fun _ _ => true,
   fun _ => false⟩

/-- Default configuration with every current PP at zero and backup
disabled. -/
def cfgDepleted : Config :=
  { defaultConfig with use_backup := false, current_pp := ⟨0, 0, 0, 0⟩ }

/-- Default configuration with the primary ability (slot 1) at zero PP,
backup disabled, and the remaining slots untouched. -/
def cfgPrimaryOut : Config :=
  { defaultConfig with use_backup := false, current_pp := ⟨0, 20, 20, 20⟩ }

/-- Worker state at the top of outer iteration 0, freshly started. -/
def wStart (c : Config) : WSt :=
  ⟨PC.outer 0, true, BotState.MOVING, c, 0, 0, 0⟩

/-- Worker state inside the battle loop after a stop request: `running`
is already `false` while the poll loop is at iteration 0. -/
def wStopReq : WSt :=
  ⟨PC.battle 0 0, false, BotState.ATTACKING, defaultConfig, 1, 0, 0⟩

/-- Worker state inside the battle loop with depleted abilities and Abra
teleport (escalation) enabled. -/
def wEscalate : WSt :=
  ⟨PC.battle 0 0, true, BotState.RUNNING,
   { cfgDepleted with use_abra_teleport := true }, 1, 0, 0⟩

/-! ## Helper lemmas about the PP dictionaries -/

theorem PPMap.get_set_self (m : PPMap) (i : Nat) (v : Int)
    (h1 : 1 ≤ i) (h4 : i ≤ 4) : (m.set i v).get i = v := by
  interval_cases i <;> rfl

theorem PPMap.get_set_other (m : PPMap) (i j : Nat) (v : Int)
    (h : j ≠ i) : (m.set i v).get j = m.get j := by
  rcases i with _ | _ | _ | _ | _ | i <;>
    rcases j with _ | _ | _ | _ | _ | j <;>
      simp_all [PPMap.set, PPMap.get]

theorem PPMap.get_pos_range (m : PPMap) (a : Nat) (h : 0 < m.get a) :
    1 ≤ a ∧ a ≤ 4 := by
  rcases a with _ | _ | _ | _ | _ | a <;> simp_all [PPMap.get]

theorem PPMap.get_reset (cfg : Config) (i : Nat) (h1 : 1 ≤ i) (h4 : i ≤ 4) :
    (reset_pp cfg).current_pp.get i = cfg.max_pp.get i := by
  interval_cases i <;> rfl

theorem PPMap.get_all_zero (m : PPMap)
    (h : ∀ j, 1 ≤ j → j ≤ 4 → m.get j = 0) (a : Nat) : m.get a = 0 := by
  rcases a with _ | _ | _ | _ | _ | a
  · rfl
  · exact h 1 (by omega) (by omega)
  · exact h 2 (by omega) (by omega)
  · exact h 3 (by omega) (by omega)
  · exact h 4 (by omega) (by omega)
  · rfl

/-- The ability chosen by the selection algorithm always has positive
current PP. -/
theorem get_ability_to_use_pos (cfg : Config) (a : Nat)
    (h : get_ability_to_use cfg = some a) : 0 < cfg.current_pp.get a := by
  unfold get_ability_to_use at h
  split_ifs at h with h1 h2
  · cases h; omega
  · cases h; omega

/-- With no explicit ability argument, `select_fight_and_ability` either
follows the selection algorithm's choice and decrements it, or changes
nothing and reports failure. -/
theorem select_none_cases (cfg : Config) :
    (∃ b, get_ability_to_use cfg = some b ∧
      select_fight_and_ability cfg none =
        (true,
         { cfg with
             current_pp := cfg.current_pp.set b (cfg.current_pp.get b - 1) })) ∨
    (get_ability_to_use cfg = none ∧
      select_fight_and_ability cfg none = (false, cfg)) := by
  unfold select_fight_and_ability chosen_ability
  cases h : get_ability_to_use cfg with
  | none => exact Or.inr ⟨rfl, rfl⟩
  | some b => exact Or.inl ⟨b, rfl, rfl⟩

theorem reset_pp_max (cfg : Config) : (reset_pp cfg).max_pp = cfg.max_pp :=
  rfl

instance ppInvariant_decidable (cfg : Config) : Decidable (ppInvariant cfg) := by
  unfold ppInvariant; infer_instance

/-! ## Claim theorems -/

/-- C1: with non-negative per-ability counters, `get_ability_to_use` never
returns an ability whose current PP is 0, and it returns `none` (flee)
exactly when the primary ability has zero PP and either backup is disabled
or the backup ability has zero PP. -/
theorem ability_selection_never_empty (cfg : Config)
    (hp : 0 ≤ cfg.current_pp.get cfg.selected_ability)
    (hb : 0 ≤ cfg.current_pp.get cfg.backup_ability) :
    (∀ a, get_ability_to_use cfg = some a → cfg.current_pp.get a ≠ 0) ∧
    (get_ability_to_use cfg = none ↔
      cfg.current_pp.get cfg.selected_ability = 0 ∧
        (cfg.use_backup = false ∨ cfg.current_pp.get cfg.backup_ability = 0)) := by
  unfold get_ability_to_use
  split_ifs with h1 h2
  · refine ⟨fun a ha => ?_, by simp; omega⟩
    obtain rfl : cfg.selected_ability = a := by simpa using ha
    omega
  · obtain ⟨hub, hbpos⟩ := h2
    refine ⟨fun a ha => ?_, by simp [hub]; omega⟩
    obtain rfl : cfg.backup_ability = a := by simpa using ha
    omega
  · rw [not_and_or] at h2
    refine ⟨by simp, ?_⟩
    simp only [true_iff]
    constructor
    · omega
    · rcases h2 with h2 | h2
      · simp at h2; simp [h2]
      · right; omega

/-- Witness for C1 at the default configuration. -/
theorem ability_selection_never_empty_witness :
    0 ≤ defaultConfig.current_pp.get defaultConfig.selected_ability ∧
    (∀ a, get_ability_to_use defaultConfig = some a →
      defaultConfig.current_pp.get a ≠ 0) :=
  ⟨by decide,
   (ability_selection_never_empty defaultConfig (by decide) (by decide)).1⟩

/-- C3: `detect` returns `false` whenever the template name is not loaded
or the capture-and-match step raises, and otherwise returns `true` exactly
when the maximum normalized cross-correlation value reaches the
threshold; being a total function it propagates no exception. -/
theorem detect_fails_closed (loaded : String → Bool)
    (captureMatch : Except Unit Rat) (name : String) (threshold : Rat) :
    (loaded name = false ∨ (∃ e, captureMatch = Except.error e) →
      detect loaded captureMatch name threshold = false) ∧
    (∀ v, loaded name = true → captureMatch = Except.ok v →
      (detect loaded captureMatch name threshold = true ↔ threshold ≤ v)) := by
  constructor
  · rintro (h | ⟨e, rfl⟩)
    · simp [detect, h]
    · simp [detect]
  · rintro v h rfl
    simp [detect, h, ge_iff_le]

/-- Witness for C3: an unloaded template name yields `false` even with a
perfect match score available. -/
theorem detect_fails_closed_witness :
    detect (fun _ => false) (Except.ok 1) "hp_bar" (4 / 5) = false :=
  (detect_fails_closed (fun _ => false) (Except.ok 1) "hp_bar" (4 / 5)).1
    (Or.inl rfl)

/-- C5: the hold duration of `move` equals
`(0 if direction == facing else time_to_turn) + time_per_space * spaces`,
is strictly increasing in `spaces` when `time_per_space` is positive, and
whenever a turn cost was paid the stored facing becomes the requested
direction. -/
theorem move_cost_model (cfg : Config) (c : MoveCtl) (direction : Direction)
    (spaces : Nat) :
    (move cfg c direction spaces).1 =
      (if direction = c.current_direction then 0 else cfg.time_to_turn) +
        cfg.time_per_space * spaces ∧
    (0 < cfg.time_per_space → ∀ s', spaces < s' →
      (move cfg c direction spaces).1 < (move cfg c direction s').1) ∧
    (c.current_direction ≠ direction →
      ((move cfg c direction spaces).2).current_direction = direction) := by
  refine ⟨?_, fun hpos s' hs => ?_, fun hne => ?_⟩
  · by_cases h : c.current_direction = direction
    · simp [move, h]
    · simp [move, h, Ne.symm h]
  · have hlt : (spaces : Rat) < (s' : Rat) := by exact_mod_cast hs
    have := mul_lt_mul_of_pos_left hlt hpos
    simp only [move]
    gcongr
  · simp [move, hne]

/-- Witness for C5: moving 2 spaces in a direction the character does not
face, with the default timings. -/
theorem move_cost_model_witness :
    (0 : Rat) < defaultConfig.time_per_space ∧
    (move defaultConfig ⟨Direction.LEFT⟩ Direction.UP 2).1 =
      (if Direction.UP = Direction.LEFT then 0 else defaultConfig.time_to_turn) +
        defaultConfig.time_per_space * 2 ∧
    (move defaultConfig ⟨Direction.LEFT⟩ Direction.UP 2).1 <
      (move defaultConfig ⟨Direction.LEFT⟩ Direction.UP 3).1 ∧
    ((move defaultConfig ⟨Direction.LEFT⟩ Direction.UP 2).2).current_direction =
      Direction.UP := by
  obtain ⟨h1, h2, h3⟩ := move_cost_model defaultConfig ⟨Direction.LEFT⟩ Direction.UP 2
  have hpos : (0 : Rat) < defaultConfig.time_per_space := by
    norm_num [defaultConfig]
  exact ⟨hpos, h1, h2 hpos 3 (by decide), h3 (by decide)⟩

/-- C9: a start request through the control surface with no HP-bar
template loaded is refused: the bot record is returned unchanged and no
worker thread is launched. -/
theorem start_refused_without_template (entries : Nat → Option Int)
    (b : GuiBot) (hrun : b.running = false) :
    toggle_bot false entries b = (b, false) := by
  simp [toggle_bot, hrun]

/-- Witness for C9 with a stopped default bot. -/
theorem start_refused_without_template_witness :
    toggle_bot false (fun _ => some 20)
      ⟨false, BotState.STOPPED, defaultConfig⟩ =
      (⟨false, BotState.STOPPED, defaultConfig⟩, false) :=
  start_refused_without_template (fun _ => some 20)
    ⟨false, BotState.STOPPED, defaultConfig⟩ rfl

/-- C10: with an explicit ability argument in 1..4,
`select_fight_and_ability` always returns `True` and decrements that
ability's counter, with no zero-PP guard; on a depleted ability the
counter becomes -1. -/
theorem explicit_ability_skips_guard (cfg : Config) (a : Nat)
    (h1 : 1 ≤ a) (h4 : a ≤ 4) :
    select_fight_and_ability cfg (some a) =
      (true,
       { cfg with
           current_pp := cfg.current_pp.set a (cfg.current_pp.get a - 1) }) ∧
    (cfg.current_pp.get a = 0 →
      ((select_fight_and_ability cfg (some a)).2).current_pp.get a = -1) := by
  refine ⟨rfl, fun h0 => ?_⟩
  simp [select_fight_and_ability, chosen_ability,
    PPMap.get_set_self _ _ _ h1 h4, h0]

/-- Witness for C10: ability 1 at zero PP is still decremented to -1. -/
theorem explicit_ability_skips_guard_witness :
    cfgDepleted.current_pp.get 1 = 0 ∧
    ((select_fight_and_ability cfgDepleted (some 1)).2).current_pp.get 1 = -1 :=
  ⟨by decide,
   (explicit_ability_skips_guard cfgDepleted 1 (by decide) (by decide)).2
     (by decide)⟩

/-- C7: the invariant `0 ≤ current_pp[i] ≤ max_pp[i]` for i in 1..4 holds
for the initial configuration and is preserved by fight execution as the
battle loop invokes it (no explicit ability argument), by the PP reset,
and by the max-PP update from the control surface.  Ability selection
does not mutate the configuration at all, so it preserves the invariant
trivially. -/
theorem pp_invariant_preserved :
    ppInvariant defaultConfig ∧
    (∀ cfg, ppInvariant cfg →
      ppInvariant (select_fight_and_ability cfg none).2) ∧
    (∀ cfg, ppInvariant cfg → ppInvariant (reset_pp cfg)) ∧
    (∀ cfg a v, ppInvariant cfg → ppInvariant (update_pp cfg a v)) := by
  refine ⟨by decide, fun cfg hInv => ?_, fun cfg hInv => ?_,
    fun cfg a v hInv => ?_⟩
  · rcases select_none_cases cfg with ⟨b, hb, hsel⟩ | ⟨-, hsel⟩
    · rw [hsel]
      have hpos := get_ability_to_use_pos cfg b hb
      obtain ⟨hb1, hb4⟩ := PPMap.get_pos_range _ _ hpos
      intro i hi
      obtain ⟨hi1, hi4⟩ := Finset.mem_Icc.mp hi
      obtain ⟨hc0, hcm⟩ := hInv i hi
      show 0 ≤ (cfg.current_pp.set b (cfg.current_pp.get b - 1)).get i ∧
        (cfg.current_pp.set b (cfg.current_pp.get b - 1)).get i ≤
          cfg.max_pp.get i
      by_cases hib : i = b
      · subst hib
        rw [PPMap.get_set_self _ _ _ hi1 hi4]
        exact ⟨by omega, by omega⟩
      · rw [PPMap.get_set_other _ _ _ _ hib]
        exact ⟨hc0, hcm⟩
    · rw [hsel]; exact hInv
  · intro i hi
    obtain ⟨hi1, hi4⟩ := Finset.mem_Icc.mp hi
    obtain ⟨hc0, hcm⟩ := hInv i hi
    show 0 ≤ (reset_pp cfg).current_pp.get i ∧
      (reset_pp cfg).current_pp.get i ≤ (reset_pp cfg).max_pp.get i
    rw [reset_pp_max, PPMap.get_reset cfg i hi1 hi4]
    exact ⟨le_trans hc0 hcm, le_refl _⟩
  · cases v with
    | none => exact hInv
    | some value =>
        by_cases hv : value > 0
        · have h2 : update_pp cfg a (some value) =
              { cfg with
                  max_pp := cfg.max_pp.set a value
                  current_pp := cfg.current_pp.set a value } := by
            simp [update_pp, hv]
          rw [h2]
          intro i hi
          obtain ⟨hi1, hi4⟩ := Finset.mem_Icc.mp hi
          show 0 ≤ (cfg.current_pp.set a value).get i ∧
            (cfg.current_pp.set a value).get i ≤ (cfg.max_pp.set a value).get i
          by_cases hia : i = a
          · subst hia
            rw [PPMap.get_set_self _ _ _ hi1 hi4,
              PPMap.get_set_self _ _ _ hi1 hi4]
            exact ⟨by omega, le_refl _⟩
          · rw [PPMap.get_set_other _ _ _ _ hia,
              PPMap.get_set_other _ _ _ _ hia]
            exact hInv i hi
        · have h2 : update_pp cfg a (some value) = cfg := by
            simp [update_pp, hv]
          rw [h2]; exact hInv

/-- Witness for C7: fight execution from the default configuration keeps
the invariant. -/
theorem pp_invariant_preserved_witness :
    ppInvariant (select_fight_and_ability defaultConfig none).2 :=
  pp_invariant_preserved.2.1 defaultConfig (by decide)

/-- The post-battle processing either leaves the configuration unchanged
or performs the full healing reset; it never touches `max_pp`. -/
theorem post_battle_cfg_cases (env : Env) (n : Nat) (r : BattleResult)
    (w : WSt) :
    ((post_battle env n r w).1.cfg = w.cfg ∨
      (post_battle env n r w).1.cfg = reset_pp w.cfg) ∧
    (post_battle env n r w).1.cfg.max_pp = w.cfg.max_pp := by
  cases r with
  | battle_complete => exact ⟨Or.inl rfl, rfl⟩
  | run =>
      simp only [post_battle]
      split_ifs with h1 h2 <;>
        first
          | exact ⟨Or.inl rfl, rfl⟩
          | exact ⟨Or.inr rfl, rfl⟩

/-- Across one worker step, the current-PP dictionary is either
unchanged, decremented by one at the ability the selection algorithm
chose, or fully reset to the maxima; `max_pp` never changes. -/
theorem step_counter_changes (env : Env) (w : WSt) :
    (step env w).1.cfg.max_pp = w.cfg.max_pp ∧
    ((step env w).1.cfg.current_pp = w.cfg.current_pp ∨
      (∃ b, get_ability_to_use w.cfg = some b ∧
        (step env w).1.cfg.current_pp =
          w.cfg.current_pp.set b (w.cfg.current_pp.get b - 1)) ∨
      (step env w).1.cfg.current_pp = (reset_pp w.cfg).current_pp) := by
  cases hpc : w.pc with
  | done => simp [step, hpc]
  | outer n =>
      simp only [step, hpc]
      split_ifs <;> exact ⟨rfl, Or.inl rfl⟩
  | battle n i =>
      cases hbt : env.battleTop n i with
      | false =>
          simp only [step, hpc, hbt, Bool.false_eq_true, not_false_eq_true,
            if_true]
          exact ⟨rfl, Or.inl rfl⟩
      | true =>
          cases hmv : env.menuVis n i with
          | false =>
              cases hba : env.battleAfter n i with
              | false =>
                  simp [step, hpc, hbt, hmv, hba]
                  exact ⟨rfl, Or.inl rfl⟩
              | true =>
                  simp [step, hpc, hbt, hmv, hba]
          | true =>
              rcases select_none_cases w.cfg with ⟨b, hb, hsel⟩ | ⟨-, hsel⟩
              · cases hba : env.battleAfter n i with
                | false =>
                    simp only [step, hpc, hbt, hmv, hba, hsel]
                    exact ⟨rfl, Or.inr (Or.inl ⟨b, hb, rfl⟩)⟩
                | true =>
                    simp [step, hpc, hbt, hmv, hba, hsel]
                    exact Or.inr (Or.inl ⟨b, hb, rfl⟩)
              · simp [step, hpc, hbt, hmv, hsel]
                obtain ⟨hor, hmax⟩ :=
                  post_battle_cfg_cases env n BattleResult.run w
                refine ⟨hmax, ?_⟩
                rcases hor with h | h
                · exact Or.inl (congrArg Config.current_pp h)
                · exact Or.inr (Or.inr (congrArg Config.current_pp h))

/-- C4: a successful fight action for the chosen ability A decreases
`current_pp[A]` by exactly one, leaves every other counter and all
`max_pp` values unchanged; and across any step of the worker machine the
counters change only by such a decrement or by an explicit reset. -/
theorem fight_decrements_exactly_chosen (cfg : Config) (oa : Option Nat)
    (a : Nat) (ha : chosen_ability cfg oa = some a)
    (h1 : 1 ≤ a) (h4 : a ≤ 4) :
    ((select_fight_and_ability cfg oa).1 = true ∧
      ((select_fight_and_ability cfg oa).2).current_pp.get a =
        cfg.current_pp.get a - 1 ∧
      (∀ j, j ≠ a →
        ((select_fight_and_ability cfg oa).2).current_pp.get j =
          cfg.current_pp.get j) ∧
      ((select_fight_and_ability cfg oa).2).max_pp = cfg.max_pp) ∧
    (∀ env w,
      (step env w).1.cfg.max_pp = w.cfg.max_pp ∧
      ((step env w).1.cfg.current_pp = w.cfg.current_pp ∨
        (∃ b, get_ability_to_use w.cfg = some b ∧
          (step env w).1.cfg.current_pp =
            w.cfg.current_pp.set b (w.cfg.current_pp.get b - 1)) ∨
        (step env w).1.cfg.current_pp = (reset_pp w.cfg).current_pp)) := by
  have hform : select_fight_and_ability cfg oa =
      (true,
       { cfg with
           current_pp := cfg.current_pp.set a (cfg.current_pp.get a - 1) }) := by
    unfold select_fight_and_ability
    rw [ha]
  refine ⟨?_, fun env w => step_counter_changes env w⟩
  rw [hform]
  refine ⟨rfl, ?_, fun j hj => ?_, rfl⟩
  · exact PPMap.get_set_self _ _ _ h1 h4
  · exact PPMap.get_set_other _ _ _ _ hj

/-- Witness for C4: fighting with the default configuration (primary
ability 1) drops its counter from 20 to 19 and leaves the rest at 20. -/
theorem fight_decrements_exactly_chosen_witness :
    (select_fight_and_ability defaultConfig none).1 = true ∧
    ((select_fight_and_ability defaultConfig none).2).current_pp.get 1 =
      defaultConfig.current_pp.get 1 - 1 ∧
    ((select_fight_and_ability defaultConfig none).2).current_pp.get 2 =
      defaultConfig.current_pp.get 2 := by
  obtain ⟨⟨hret, hdec, hoth, -⟩, -⟩ :=
    fight_decrements_exactly_chosen defaultConfig none 1 (by decide)
      (by decide) (by decide)
  exact ⟨hret, hdec, hoth 2 (by decide)⟩

/-- C2 (amended): with the bot started, the detector reporting
battle-active and menu-visible, and every ability counter at zero (the
pre-battle check of `main_loop` scans all four counters, so primary-only
depletion is not enough), the worker goes Moving → InBattle → Fleeing
without ever entering the Attacking state, increments the flee counter by
exactly one, and, with escalation disabled, returns to Moving. -/
theorem depleted_flee_scenario (env : Env) (w : WSt) (n : Nat)
    (hpc : w.pc = PC.outer n) (hrun : w.running = true)
    (hdet : env.outerInBattle n = true)
    (hbt : env.battleTop n 0 = true) (hmv : env.menuVis n 0 = true)
    (hpp : ∀ j, 1 ≤ j → j ≤ 4 → w.cfg.current_pp.get j = 0)
    (hbackup : w.cfg.use_backup = false)
    (htp : w.cfg.use_abra_teleport = false) :
    (runSteps env w 2).2 =
      [BotState.IN_BATTLE, BotState.RUNNING, BotState.RUNNING,
        BotState.MOVING] ∧
    BotState.ATTACKING ∉ (runSteps env w 2).2 ∧
    (runSteps env w 2).1.runs = w.runs + 1 ∧
    (runSteps env w 2).1.battles = w.battles + 1 ∧
    (runSteps env w 2).1.botState = BotState.MOVING ∧
    (runSteps env w 2).1.pc = PC.outer (n + 1) := by
  have hppz : ∀ a, w.cfg.current_pp.get a = 0 :=
    PPMap.get_all_zero _ hpp
  have hp1 : w.cfg.current_pp.pp1 = 0 := hppz 1
  have hp2 : w.cfg.current_pp.pp2 = 0 := hppz 2
  have hp3 : w.cfg.current_pp.pp3 = 0 := hppz 3
  have hp4 : w.cfg.current_pp.pp4 = 0 := hppz 4
  have hhp : has_pp w.cfg = false := by
    simp [has_pp, hp1, hp2, hp3, hp4]
  have hsel : get_ability_to_use w.cfg = none := by
    simp [get_ability_to_use, hppz, hbackup]
  have hself : select_fight_and_ability w.cfg none = (false, w.cfg) := by
    simp [select_fight_and_ability, chosen_ability, hsel]
  have h1 : step env w =
      ({ w with
          pc := PC.battle n 0
          botState := BotState.RUNNING
          battles := w.battles + 1 },
       [BotState.IN_BATTLE, BotState.RUNNING]) := by
    simp [step, hpc, hrun, hdet, hhp]
  have h2 : step env
      { w with
          pc := PC.battle n 0
          botState := BotState.RUNNING
          battles := w.battles + 1 } =
      ({ w with
          pc := PC.outer (n + 1)
          botState := BotState.MOVING
          battles := w.battles + 1
          runs := w.runs + 1 },
       [BotState.RUNNING, BotState.MOVING]) := by
    simp [step, hbt, hmv, hself, post_battle, htp]
  have hrs : runSteps env w 2 =
      ({ w with
          pc := PC.outer (n + 1)
          botState := BotState.MOVING
          battles := w.battles + 1
          runs := w.runs + 1 },
       [BotState.IN_BATTLE, BotState.RUNNING, BotState.RUNNING,
        BotState.MOVING]) := by
    simp [runSteps, h1, h2]
  rw [hrs]
  refine ⟨rfl, ?_, rfl, rfl, rfl, rfl⟩
  simp

/-- Witness for C2 (amended): the fully depleted scenario from the
concrete fixtures. -/
theorem depleted_flee_scenario_witness :
    (runSteps envConst (wStart cfgDepleted) 2).2 =
      [BotState.IN_BATTLE, BotState.RUNNING, BotState.RUNNING,
        BotState.MOVING] ∧
    (runSteps envConst (wStart cfgDepleted) 2).1.runs =
      (wStart cfgDepleted).runs + 1 := by
  obtain ⟨h1, -, h3, -, -, -⟩ :=
    depleted_flee_scenario envConst (wStart cfgDepleted) 0 rfl rfl rfl rfl
      rfl (by intro j hj1 hj4; interval_cases j <;> rfl) rfl rfl
  exact ⟨h1, h3⟩

/-- Counterexample for C2 as stated: starting with the primary ability at
zero PP and backup disabled but other abilities still having PP, the
worker does enter the Attacking state, because `main_loop`'s pre-battle
check scans all four counters. -/
theorem depleted_flee_scenario_cex :
    cfgPrimaryOut.current_pp.get cfgPrimaryOut.selected_ability = 0 ∧
    cfgPrimaryOut.use_backup = false ∧
    (wStart cfgPrimaryOut).running = true ∧
    BotState.ATTACKING ∈ (runSteps envConst (wStart cfgPrimaryOut) 1).2 := by
  decide

/-- C6: when escalation (Abra teleport) is enabled and the battle-turn
loop produces a Fled outcome, then: if the detector still reports battle
at the teleport check, the recovery attempt is abandoned and the state
falls back to Moving with the configuration untouched; otherwise the
worker teleports and heals, after which every `current_pp[i]` equals
`max_pp[i]`, the state is Stopped, the running flag is cleared and the
worker loop exits. -/
theorem escalation_recovery (env : Env) (w : WSt) (n i : Nat)
    (hpc : w.pc = PC.battle n i)
    (hbt : env.battleTop n i = true) (hmv : env.menuVis n i = true)
    (hsel : get_ability_to_use w.cfg = none)
    (htp : w.cfg.use_abra_teleport = true) :
    (env.teleportInBattle n = true →
      (step env w).1.botState = BotState.MOVING ∧
      (step env w).1.pc = PC.outer (n + 1) ∧
      (step env w).1.cfg = w.cfg ∧
      (step env w).1.running = w.running ∧
      (step env w).1.runs = w.runs + 1) ∧
    (env.teleportInBattle n = false →
      (step env w).1.botState = BotState.STOPPED ∧
      (step env w).1.running = false ∧
      (step env w).1.pc = PC.done ∧
      (step env w).1.runs = w.runs + 1 ∧
      (∀ j, 1 ≤ j → j ≤ 4 →
        (step env w).1.cfg.current_pp.get j = w.cfg.max_pp.get j)) := by
  have hself : select_fight_and_ability w.cfg none = (false, w.cfg) := by
    simp [select_fight_and_ability, chosen_ability, hsel]
  constructor
  · intro htel
    simp [step, hpc, hbt, hmv, hself, post_battle, htp, htel]
  · intro htel
    have hstep : (step env w).1 =
        { w with
            botState := BotState.STOPPED
            running := false
            cfg := reset_pp w.cfg
            runs := w.runs + 1
            pc := PC.done } := by
      simp [step, hpc, hbt, hmv, hself, post_battle, htp, htel]
    rw [hstep]
    exact ⟨rfl, rfl, rfl, rfl, fun j hj1 hj4 => PPMap.get_reset w.cfg j hj1 hj4⟩

/-- Witness for C6: from a depleted, escalation-enabled battle state with
a calm teleport check, one step stops the bot and restores ability 1 to
its maximum. -/
theorem escalation_recovery_witness :
    (step envCalmTeleport wEscalate).1.botState = BotState.STOPPED ∧
    (step envCalmTeleport wEscalate).1.running = false ∧
    (step envCalmTeleport wEscalate).1.pc = PC.done ∧
    (step envCalmTeleport wEscalate).1.cfg.current_pp.get 1 =
      wEscalate.cfg.max_pp.get 1 := by
  obtain ⟨-, h⟩ :=
    escalation_recovery envCalmTeleport wEscalate 0 0 rfl rfl rfl
      (by decide) rfl
  obtain ⟨ha, hb, hc, -, hd⟩ := h rfl
  exact ⟨ha, hb, hc, hd 1 (by decide) (by decide)⟩

/-- C8 (amended): the worker consults the stop flag only at the top of
the outer loop: a stop request observed there ends the loop at once, so
no further movement cycle or outer iteration begins; but the battle-turn
loop never consults the stop flag, so poll iterations can still begin
after a stop request (refuted part of the original claim). -/
theorem stop_checked_at_outer_top (env : Env) (w : WSt) (n : Nat)
    (hrun : w.running = false) (hpc : w.pc = PC.outer n) :
    step env w = ({ w with pc := PC.done }, []) ∧
    (step env w).1.movements = w.movements ∧
    (step env w).1.battles = w.battles := by
  have h : step env w = ({ w with pc := PC.done }, []) := by
    simp [step, hpc, hrun]
  exact ⟨h, by rw [h], by rw [h]⟩

/-- Witness for C8 (amended): a stopped worker at the outer loop top
exits immediately. -/
theorem stop_checked_at_outer_top_witness :
    step envConst ⟨PC.outer 0, false, BotState.MOVING, defaultConfig, 0, 0, 0⟩ =
      (⟨PC.done, false, BotState.MOVING, defaultConfig, 0, 0, 0⟩, []) :=
  (stop_checked_at_outer_top envConst
    ⟨PC.outer 0, false, BotState.MOVING, defaultConfig, 0, 0, 0⟩ 0 rfl rfl).1

/-- Counterexample for C8 as stated: with the stop flag already cleared
mid-battle, the worker still begins another poll iteration of the
battle-turn loop, because `handle_battle` never checks the stop flag. -/
theorem stop_checked_at_outer_top_cex :
    wStopReq.running = false ∧
    (step envConst wStopReq).1.pc = PC.battle 0 1 := by
  decide

end PokeBot
